import Mathlib

/-
Verification of the change-plan engine of `ai_dev_studio.py`.

The engine consists of:
  * `clamp_to_root`        – the path sandbox (module-level function),
  * `PlanView.load_plan`   – decoding a JSON plan dictionary into `AIPlan`,
  * `PlanView.apply_changes` – applying a plan to the filesystem,
  * `ChatPanel.on_send`    – the offline (echo) plan generator,
  * `AIWorker.run`         – the asynchronous fetch worker.

POSIX paths are modelled as a flag for absoluteness plus the list of
non-empty path components.  `Path.resolve()` is modelled as lexical
normalisation of `.` and `..` components (symbolic links are assumed
absent, so lexical normalisation agrees with filesystem canonicalisation).
The filesystem is modelled as a map from absolute canonical component
lists to file contents, together with a set of directories.  The
state-determined error paths of the filesystem primitives are modelled:
`mkdir(parents=True, exist_ok=True)` raises when the directory or a
needed ancestor exists as a regular file, `write_text` and `unlink`
raise `IsADirectoryError` on a directory.  Environmental failures
(permissions, disk errors) are outside the model.
-/

/-- A pathlib-style path: absolute flag plus components. `Path("a//b")`
normalises to components `["a","b"]`; `Path("/x")` is absolute. -/
structure PyPath where
  absolute : Bool
  segs : List String
deriving DecidableEq

/-- Split a character list on a separator character. -/
def splitOnChar (c : Char) : List Char → List (List Char)
  | [] => [[]]
  | x :: xs =>
    match splitOnChar c xs with
    | [] => [[]]
    | g :: gs => if x = c then [] :: g :: gs else (x :: g) :: gs

/-- `Path(s)` for a path string `s`: leading `/` means absolute, empty
components collapse. (`.` components are handled by `resolveSegs`.) -/
def parsePath (s : String) : PyPath :=
  let cs := s.toList
  { absolute := match cs with | c :: _ => c = '/' | [] => false
    segs := ((splitOnChar '/' cs).map (fun g => String.mk g)).filter (fun t => ¬ t = "") }

/-- `SAFE_ROOT / p`: pathlib's join discards the left operand when the
right operand is absolute. `root` is the component list of the (absolute,
already canonical) sandbox root. -/
def joinPath (root : List String) (p : PyPath) : List String :=
  if p.absolute then p.segs else root ++ p.segs

/-- One step of lexical canonicalisation: `.` is dropped, `..` removes the
last component (at the filesystem root it stays at the root), anything
else is appended. -/
def resolveStep (acc : List String) (s : String) : List String :=
  if s = "." then acc else if s = ".." then acc.dropLast else acc ++ [s]

/-- `Path.resolve()` on an absolute path, as lexical normalisation of the
component list (no symlinks modelled). -/
def resolveSegs (segs : List String) : List String :=
  segs.foldl resolveStep []

/-- `Path.parents` of an absolute path with components `q`: all strict
ancestors, i.e. all proper prefixes of the component list. -/
def pathParents (q : List String) : List (List String) :=
  (List.range q.length).map (fun i => q.take i)

/-- Errors `clamp_to_root` can raise: the `assert SAFE_ROOT is not None`
assertion, and the `ValueError` for a path outside the project. -/
inductive ClampErr
  | assertFailed
  | pathEscape
deriving DecidableEq

/-- `clamp_to_root(p)` from `ai_dev_studio.py`:
asserts `SAFE_ROOT is not None`, computes `(SAFE_ROOT / p).resolve()`, and
raises `ValueError` unless `SAFE_ROOT in p.parents or p == SAFE_ROOT`. -/
def clamp_to_root (safeRoot : Option (List String)) (p : PyPath) :
    Except ClampErr (List String) :=
  match safeRoot with
  | none => .error .assertFailed
  | some root =>
    let q := resolveSegs (joinPath root p)
    if root ∉ pathParents q ∧ q ≠ root then .error .pathEscape else .ok q

/-- `q` equals the root or is a strict descendant of the root in the
canonical hierarchy. -/
def underRoot (root q : List String) : Prop :=
  q = root ∨ (root <+: q ∧ q ≠ root)

/-- A component list already in canonical form: no `.` or `..` entries. -/
def noSpecial (segs : List String) : Prop :=
  ∀ s ∈ segs, s ≠ "." ∧ s ≠ ".."

instance (root q : List String) : Decidable (underRoot root q) :=
  decidable_of_iff (q = root ∨ (root <+: q ∧ q ≠ root)) Iff.rfl

instance (segs : List String) : Decidable (noSpecial segs) :=
  decidable_of_iff (∀ s ∈ segs, s ≠ "." ∧ s ≠ "..") Iff.rfl

/-- A JSON value as produced by `json.loads` for a plan response.  The
plans exchanged by the program only contain strings, arrays and objects
at the positions the decoder inspects, so numeric leaves are omitted. -/
inductive JValue
  | jstr (s : String)
  | jarr (xs : List JValue)
  | jobj (fields : List (String × JValue))

/-- The `FileChange` dataclass.  Python dataclasses do not enforce the
annotated types, and `load_plan` fills the fields with `c.get(...)`,
which yields `None` for a missing key; so each field is an `Option`.
A non-string JSON value stored in a field behaves, at every use site in
the program, like a value unequal to every string, so it is modelled as
`none` as well. -/
structure FileChange where
  op : Option String
  path : Option String
  content : Option String
deriving DecidableEq

/-- The `AIPlan` dataclass: ordered changes plus free-text notes. -/
structure AIPlan where
  changes : List FileChange
  notes : String
deriving DecidableEq

/-- `dict.get(k)`: look up a key, `None` when absent. -/
def jget (fields : List (String × JValue)) (k : String) : Option JValue :=
  (fields.find? (fun kv => kv.1 == k)).map (fun kv => kv.2)

/-- Coerce an optional JSON value to an optional string. -/
def asString : Option JValue → Option String
  | some (.jstr s) => some s
  | _ => none

/-- One element of the `changes` comprehension in `load_plan`:
`FileChange(op=c.get('op'), path=c.get('path'), content=c.get('content'))`.
A non-object element raises `AttributeError` (no `.get`), which the
surrounding `try` converts into the decode failure. -/
def toFileChange (c : JValue) : Except Unit FileChange :=
  match c with
  | .jobj fields =>
    .ok { op := asString (jget fields "op"), path := asString (jget fields "path"),
          content := asString (jget fields "content") }
  | _ => .error ()

/-- `PlanView.load_plan(plan_dict)`: builds `AIPlan` from
`plan_dict.get('changes', [])` and `plan_dict.get('notes', '')`.  Any
exception inside the comprehension is caught and reported as a bad plan
(`.error`).  Iterating a non-list `changes` value: a string or a dict
yields its characters/keys, which lack `.get` and so fail unless the
iteration is empty. -/
def PlanView.load_plan (j : JValue) : Except Unit AIPlan :=
  match j with
  | .jobj fields =>
    let notes := match jget fields "notes" with | some (.jstr s) => s | _ => ""
    match jget fields "changes" with
    | none => .ok { changes := [], notes := notes }
    | some (.jarr xs) =>
      match xs.mapM toFileChange with
      | .ok chs => .ok { changes := chs, notes := notes }
      | .error e => .error e
    | some (.jstr s) => if s = "" then .ok { changes := [], notes := notes } else .error ()
    | some (.jobj kvs) => if kvs.isEmpty then .ok { changes := [], notes := notes } else .error ()
  | _ => .error ()

/-- Filesystem state: file contents and the set of existing directories,
both keyed by absolute canonical component lists. -/
structure FS where
  files : List String → Option String
  dirs : List String → Bool

/-- `Path.exists()`. -/
def fsExists (fs : FS) (p : List String) : Bool :=
  (fs.files p).isSome || fs.dirs p

/-- All prefixes of a component list, the list itself included. -/
def pathPrefixes (d : List String) : List (List String) :=
  pathParents d ++ [d]

/-- `Path.unlink()`: removes the file at the path; raises
`IsADirectoryError` when the path is an existing directory (`unlink`
never removes a directory). -/
def unlinkEntry (fs : FS) (p : List String) : Except Unit FS :=
  if fs.dirs p then .error ()
  else .ok { fs with files := fun q => if q = p then none else fs.files q }

/-- `d.mkdir(parents=True, exist_ok=True)`: raises when `d` or a needed
ancestor exists as a regular file (`FileExistsError` for `d` itself,
`NotADirectoryError` for an ancestor; `exist_ok` only suppresses the
error for an existing directory); on success the directory and all its
ancestors exist afterwards, files untouched. -/
def mkdirParents (fs : FS) (d : List String) : Except Unit FS :=
  if (pathPrefixes d).any (fun q => (fs.files q).isSome) then .error ()
  else .ok { fs with dirs := fun q => fs.dirs q || q.isPrefixOf d }

/-- `target.write_text(content)`: replaces the file body wholesale;
raises `IsADirectoryError` when the target is an existing directory. -/
def writeFile (fs : FS) (p : List String) (c : String) : Except Unit FS :=
  if fs.dirs p then .error ()
  else .ok { fs with files := fun q => if q = p then some c else fs.files q }

/-- The reason an individual operation was recorded in `errors`. -/
inductive OpError
  | assertFailed
  | pathEscape
  | badPath
  | missingContent
  | unknownOp (op : Option String)
  | notADirectory
  | isADirectory
deriving DecidableEq

/-- Per-operation outcome: success, or caught exception with its reason. -/
inductive Outcome
  | applied
  | failed (e : OpError)
deriving DecidableEq

/-- Map a `clamp_to_root` exception to the recorded per-op error. -/
def errOfClamp : ClampErr → OpError
  | .assertFailed => .assertFailed
  | .pathEscape => .pathEscape

/-- The body of the `for ch in self._plan.changes` loop in
`apply_changes`, with its `try/except` made explicit: `Path(ch.path)`
(`TypeError` when the path is not a string), `clamp_to_root`, then the
dispatch on `ch.op` — `delete` first, then `create`/`update` (which
requires `content` and writes after creating parent directories), and
`ValueError` for any other op value. -/
def applyOne (safeRoot : Option (List String)) (fs : FS) (ch : FileChange) :
    FS × Outcome :=
  match ch.path with
  | none => (fs, .failed .badPath)
  | some ps =>
    match clamp_to_root safeRoot (parsePath ps) with
    | .error e => (fs, .failed (errOfClamp e))
    | .ok target =>
      if ch.op = some "delete" then
        if fsExists fs target then
          match unlinkEntry fs target with
          | .ok fs2 => (fs2, .applied)
          | .error _ => (fs, .failed .isADirectory)
        else (fs, .applied)
      else if ch.op = some "create" ∨ ch.op = some "update" then
        match ch.content with
        | none => (fs, .failed .missingContent)
        | some c =>
          match mkdirParents fs target.dropLast with
          | .error _ => (fs, .failed .notADirectory)
          | .ok fs2 =>
            match writeFile fs2 target c with
            | .error _ => (fs2, .failed .isADirectory)
            | .ok fs3 => (fs3, .applied)
      else (fs, .failed (.unknownOp ch.op))

/-- The loop of `apply_changes`: operations run one after another in
listed order, each on the state left by its predecessors, each yielding
its own outcome. -/
def applyList (safeRoot : Option (List String)) (fs : FS) :
    List FileChange → FS × List Outcome
  | [] => (fs, [])
  | ch :: rest =>
    let r1 := applyOne safeRoot fs ch
    let r2 := applyList safeRoot r1.1 rest
    (r2.1, r1.2 :: r2.2)

/-- Result of one `apply_changes` call. -/
inductive ApplyResult
  | noPlan
  | noProjectOpen
  | report (outcomes : List Outcome)
deriving DecidableEq

/-- `PlanView.apply_changes`: returns silently when no plan is loaded,
warns with the open-a-project-first message when `SAFE_ROOT is None`
(before touching any operation), otherwise runs the loop and reports the
collected outcomes. -/
def PlanView.apply_changes (plan : Option AIPlan) (safeRoot : Option (List String))
    (fs : FS) : FS × ApplyResult :=
  match plan with
  | none => (fs, .noPlan)
  | some pl =>
    match safeRoot with
    | none => (fs, .noProjectOpen)
    | some root =>
      let r := applyList (some root) fs pl.changes
      (r.1, .report r.2)

/-- The outcome list of a completed apply, empty for the early returns. -/
def resultOutcomes : ApplyResult → List Outcome
  | .report os => os
  | _ => []

/-- Whether a report contains an operation that failed because the
`assert SAFE_ROOT is not None` assertion fired. -/
def hasAssertFailure (r : ApplyResult) : Bool :=
  (resultOutcomes r).any (fun o => decide (o = Outcome.failed OpError.assertFailed))

/-- Python `str.strip()` on the prompt text. -/
def stripStr (s : String) : String :=
  String.mk ((((s.toList.dropWhile Char.isWhitespace).reverse).dropWhile
    Char.isWhitespace).reverse)

/-- The offline (echo) generator inside `ChatPanel.on_send`: for
instruction text `msg` it builds the fixed-shape plan with exactly one
`create` of `README.md` embedding `msg`, plus the stub notes. -/
def offline_plan (msg : String) : AIPlan :=
  { changes := [{ op := some "create", path := some "README.md",
                  content := some ("# Projekt\n\nInstrukcja: " ++ msg ++ "\n") }],
    notes := "Tryb offline: tylko przykład tworzenia README.md" }

/-- `ChatPanel.on_send` in offline mode: strip the prompt, return without
emitting anything when it is empty, otherwise emit the offline plan. -/
def ChatPanel.on_send (raw : String) : Option AIPlan :=
  let msg := stripStr raw
  if msg = "" then none else some (offline_plan msg)

/-- A terminal notification emitted by the worker thread: the
`finished_plan` signal with the raw response text, or the `error_signal`
with the error description. -/
inductive Notification
  | planReady (raw : String)
  | fetchFailed (err : String)
deriving DecidableEq

/-- `AIWorker.run`: the whole body sits in one `try/except`.  With no
`OPENAI_API_KEY` it raises, and the handler emits `error_signal`; the
external completion call is modelled as a function `service` that either
returns the response content or raises (`Except.error`); on success
`finished_plan` is emitted with the content.  The returned list collects
the notifications emitted by this invocation, in order. -/
def AIWorker.run (apiKey : Option String) (service : String → Except String String)
    (msg : String) : List Notification :=
  match apiKey with
  | none => [.fetchFailed "RuntimeError: Brak OPENAI_API_KEY w środowisku."]
  | some _ =>
    match service msg with
    | .ok content => [.planReady content]
    | .error e => [.fetchFailed e]

/-- The empty project filesystem. -/
def fs0 : FS :=
  { files := fun _ => none, dirs := fun _ => false }

/-- The plan `[Create("x.txt","1"), Delete("/etc/hosts")]`. -/
def planCreateDelete : AIPlan :=
  { changes := [{ op := some "create", path := some "x.txt", content := some "1" },
                { op := some "delete", path := some "/etc/hosts", content := none }],
    notes := "" }

/-- The plan `[Create("a","x"), Create("a/b.txt","y")]`: the second
operation needs directory `a`, but `a` is a regular file by then. -/
def planFileParent : AIPlan :=
  { changes := [{ op := some "create", path := some "a", content := some "x" },
                { op := some "create", path := some "a/b.txt", content := some "y" }],
    notes := "" }

/-- The plan `[Create("d/f.txt","x"), Delete("d")]`: the delete target
`d` is an existing directory by the time it runs. -/
def planDeleteDir : AIPlan :=
  { changes := [{ op := some "create", path := some "d/f.txt", content := some "x" },
                { op := some "delete", path := some "d", content := none }],
    notes := "" }

theorem mem_pathParents_iff (l q : List String) :
    l ∈ pathParents q ↔ l <+: q ∧ l ≠ q := by
  constructor
  · intro h
    rcases List.mem_map.mp h with ⟨i, hi, rfl⟩
    rw [List.mem_range] at hi
    refine ⟨List.take_prefix i q, ?_⟩
    intro he
    have hlen : (q.take i).length = q.length := by rw [he]
    rw [List.length_take] at hlen
    have h1 : min i q.length ≤ i := Nat.min_le_left _ _
    rw [hlen] at h1
    exact absurd hi (Nat.not_lt.mpr h1)
  · intro ⟨hpre, hne⟩
    have hlen : l.length ≤ q.length := hpre.length_le
    have htake : l = q.take l.length := List.prefix_iff_eq_take.mp hpre
    have hlt : l.length < q.length := by
      rcases Nat.lt_or_ge l.length q.length with h | h
      · exact h
      · exfalso
        have : l.length = q.length := Nat.le_antisymm hlen h
        exact hne (hpre.eq_of_length this)
    exact List.mem_map.mpr ⟨l.length, List.mem_range.mpr hlt, htake.symm⟩

theorem clamp_to_root_some (root : List String) (p : PyPath) :
    clamp_to_root (some root) p =
      if root ∉ pathParents (resolveSegs (joinPath root p)) ∧
          resolveSegs (joinPath root p) ≠ root
      then .error .pathEscape else .ok (resolveSegs (joinPath root p)) := rfl

theorem resolveSegs_no_special (segs : List String) (h : noSpecial segs) :
    resolveSegs segs = segs := by
  suffices haux : ∀ l, noSpecial l → ∀ acc, List.foldl resolveStep acc l = acc ++ l by
    simpa [resolveSegs] using haux segs h []
  intro l
  induction l with
  | nil => intro _ acc; simp
  | cons s rest ih =>
    intro hl acc
    have hs := hl s (List.mem_cons_self s rest)
    have hrest : noSpecial rest := fun t ht => hl t (List.mem_cons_of_mem s ht)
    simp only [List.foldl_cons]
    rw [show resolveStep acc s = acc ++ [s] by simp [resolveStep, hs.1, hs.2]]
    rw [ih hrest (acc ++ [s])]
    simp

theorem clamp_some_ne_assert (root : List String) (p : PyPath) :
    clamp_to_root (some root) p ≠ .error .assertFailed := by
  rw [clamp_to_root_some]
  by_cases hc : root ∉ pathParents (resolveSegs (joinPath root p)) ∧
      resolveSegs (joinPath root p) ≠ root
  · rw [if_pos hc]; simp
  · rw [if_neg hc]; simp

theorem applyOne_ne_assert (root : List String) (fs : FS) (ch : FileChange) :
    (applyOne (some root) fs ch).2 ≠ Outcome.failed OpError.assertFailed := by
  unfold applyOne
  cases hp : ch.path with
  | none => simp
  | some ps =>
    cases hc : clamp_to_root (some root) (parsePath ps) with
    | error e =>
      cases e with
      | assertFailed => exact absurd hc (clamp_some_ne_assert root (parsePath ps))
      | pathEscape => simp [hc, errOfClamp]
    | ok target =>
      simp only [hc]
      by_cases hd : ch.op = some "delete"
      · rw [if_pos hd]
        by_cases he : fsExists fs target
        · cases hu : unlinkEntry fs target <;> simp [he, hu]
        · simp [he]
      · rw [if_neg hd]
        by_cases hcu : ch.op = some "create" ∨ ch.op = some "update"
        · rw [if_pos hcu]
          cases hco : ch.content with
          | none => simp
          | some c =>
            cases hm : mkdirParents fs target.dropLast with
            | error u => simp [hm]
            | ok fs2 => cases hw : writeFile fs2 target c <;> simp [hm, hw]
        · rw [if_neg hcu]
          simp

theorem applyList_no_assert (root : List String) (fs : FS) (chs : List FileChange) :
    ((applyList (some root) fs chs).2.any
      (fun o => decide (o = Outcome.failed OpError.assertFailed))) = false := by
  induction chs generalizing fs with
  | nil => rfl
  | cons ch rest ih =>
    simp only [applyList, List.any_cons]
    rw [ih, Bool.or_false]
    exact decide_eq_false (applyOne_ne_assert root fs ch)

theorem applyList_length (sr : Option (List String)) (chs : List FileChange) :
    ∀ fs, ((applyList sr fs chs).2).length = chs.length := by
  induction chs with
  | nil => intro fs; rfl
  | cons ch rest ih =>
    intro fs
    simp only [applyList, List.length_cons]
    rw [ih]

/-- C1: `clamp_to_root` succeeds — returning the canonicalised joined
path — exactly when that canonical path equals the root or is a strict
descendant of it, and fails with the path-escape `ValueError` in every
other case (ancestors, siblings, absolute paths elsewhere).  The
membership test is stated on the canonical form `resolveSegs (joinPath
root p)`, never on the raw input, so `..`-laden inputs that canonicalise
inside the root succeed and ones that canonicalise outside fail. -/
theorem clamp_to_root_succeeds_iff_under_root (root : List String) (p : PyPath) :
    (clamp_to_root (some root) p = .ok (resolveSegs (joinPath root p)) ↔
      underRoot root (resolveSegs (joinPath root p)))
    ∧ (clamp_to_root (some root) p = .error .pathEscape ↔
      ¬ underRoot root (resolveSegs (joinPath root p)))
    ∧ (clamp_to_root (some root) p = .ok (resolveSegs (joinPath root p)) ∨
      clamp_to_root (some root) p = .error .pathEscape) := by
  have hur : (root ∈ pathParents (resolveSegs (joinPath root p)) ∨
      resolveSegs (joinPath root p) = root) ↔
      underRoot root (resolveSegs (joinPath root p)) := by
    rw [mem_pathParents_iff, underRoot]
    constructor
    · rintro (⟨hp, hne⟩ | he)
      · exact Or.inr ⟨hp, fun h => hne h.symm⟩
      · exact Or.inl he
    · rintro (he | ⟨hp, hne⟩)
      · exact Or.inr he
      · exact Or.inl ⟨hp, fun h => hne h.symm⟩
  rw [clamp_to_root_some]
  by_cases hc : root ∉ pathParents (resolveSegs (joinPath root p)) ∧
      resolveSegs (joinPath root p) ≠ root
  · rw [if_pos hc]
    have hnot : ¬ underRoot root (resolveSegs (joinPath root p)) := by
      intro hu
      rcases hur.mpr hu with h1 | h2
      · exact hc.1 h1
      · exact hc.2 h2
    exact ⟨iff_of_false (by simp) hnot, iff_of_true rfl hnot, Or.inr rfl⟩
  · have hyes : underRoot root (resolveSegs (joinPath root p)) := by
      apply hur.mp
      by_cases h1 : root ∈ pathParents (resolveSegs (joinPath root p))
      · exact Or.inl h1
      · right; by_contra h2; exact hc ⟨h1, h2⟩
    rw [if_neg hc]
    exact ⟨iff_of_true rfl hyes, iff_of_false (by simp) (not_not_intro hyes), Or.inl rfl⟩

/-- Witness for C1 at concrete inputs: a `..` input that canonicalises to
a sibling of the root is rejected, and a `..` input that canonicalises
back inside the root is accepted. -/
theorem clamp_to_root_succeeds_iff_under_root_witness :
    clamp_to_root (some ["proj"]) (parsePath "../etc") = .error .pathEscape
    ∧ clamp_to_root (some ["proj"]) (parsePath "a/../b.txt") = .ok ["proj", "b.txt"] := by
  constructor
  · exact (clamp_to_root_succeeds_iff_under_root ["proj"] (parsePath "../etc")).2.1.mpr
      (by decide)
  · exact (clamp_to_root_succeeds_iff_under_root ["proj"] (parsePath "a/../b.txt")).1.mpr
      (by decide)

/-- C9: an absolute canonical path that is the root itself or a strict
descendant of it passes `clamp_to_root` and is returned unchanged:
pathlib's `/` discards the left operand for an absolute right operand,
so absolute inputs are not rejected as such — only canonicalising
outside the root fails. -/
theorem clamp_to_root_absolute_inside (root ps : List String)
    (h1 : noSpecial ps) (h2 : root <+: ps) :
    joinPath root { absolute := true, segs := ps } = ps
    ∧ clamp_to_root (some root) { absolute := true, segs := ps } = .ok ps := by
  have hres : resolveSegs (joinPath root { absolute := true, segs := ps }) = ps :=
    resolveSegs_no_special ps h1
  refine ⟨rfl, ?_⟩
  rw [clamp_to_root_some, hres]
  have hcond : ¬ (root ∉ pathParents ps ∧ ps ≠ root) := by
    by_cases he : ps = root
    · intro h; exact h.2 he
    · intro h
      exact h.1 ((mem_pathParents_iff root ps).mpr ⟨h2, fun hh => he hh.symm⟩)
  rw [if_neg hcond]

/-- Witness for C9: an absolute strict descendant of the root resolves
to itself. -/
theorem clamp_to_root_absolute_inside_witness :
    noSpecial ["home", "proj", "src", "m.py"]
    ∧ ["home", "proj"] <+: ["home", "proj", "src", "m.py"]
    ∧ clamp_to_root (some ["home", "proj"])
        { absolute := true, segs := ["home", "proj", "src", "m.py"] } =
      .ok ["home", "proj", "src", "m.py"] := by
  refine ⟨by decide, by decide, ?_⟩
  exact (clamp_to_root_absolute_inside ["home", "proj"] ["home", "proj", "src", "m.py"]
    (by decide) (by decide)).2

/-- C10: `clamp_to_root` opens with `assert SAFE_ROOT is not None` (the
unset-root call errors with the assertion), and `apply_changes` guards
`SAFE_ROOT is None` before its loop, so no outcome an `apply_changes`
call reports is ever a failure of that assertion. -/
theorem apply_changes_assert_precondition :
    (∀ p, clamp_to_root none p = .error .assertFailed)
    ∧ (∀ plan safeRoot fs,
        hasAssertFailure (PlanView.apply_changes plan safeRoot fs).2 = false) := by
  constructor
  · intro p; rfl
  · intro plan safeRoot fs
    cases plan with
    | none => rfl
    | some pl =>
      cases safeRoot with
      | none => rfl
      | some root =>
        simp only [PlanView.apply_changes, hasAssertFailure, resultOutcomes]
        exact applyList_no_assert root fs pl.changes

/-- C3: with a plan loaded but no project open, `apply_changes` returns
the no-project failure at once, leaving the filesystem untouched. -/
theorem apply_changes_no_project (plan : AIPlan) (fs : FS) :
    PlanView.apply_changes (some plan) none fs = (fs, .noProjectOpen) := rfl

/-- C2: operations are applied independently in listed order — every
operation yields its own outcome (no abort, so the report is as long as
the plan), each runs on the state left by its predecessors whatever
their outcomes (no rollback), a failed path resolution leaves the
filesystem untouched for that operation, and the
`[Create("x.txt","1"), Delete("/etc/hosts")]` plan yields `applied` then
a path-escape failure with `x.txt` still written. -/
theorem apply_changes_per_op_isolation :
    (∀ root fs chs, ((applyList (some root) fs chs).2).length = chs.length)
    ∧ (∀ root fs ch rest,
        applyList (some root) fs (ch :: rest) =
          ((applyList (some root) (applyOne (some root) fs ch).1 rest).1,
            (applyOne (some root) fs ch).2 ::
              (applyList (some root) (applyOne (some root) fs ch).1 rest).2))
    ∧ (∀ safeRoot fs op ps c,
        clamp_to_root safeRoot (parsePath ps) = .error .pathEscape →
          applyOne safeRoot fs { op := op, path := some ps, content := c } =
            (fs, .failed .pathEscape))
    ∧ ((PlanView.apply_changes (some planCreateDelete) (some ["proj"]) fs0).2 =
        .report [.applied, .failed .pathEscape]
      ∧ (PlanView.apply_changes (some planCreateDelete) (some ["proj"]) fs0).1.files
          ["proj", "x.txt"] = some "1") := by
  refine ⟨fun root fs chs => applyList_length (some root) chs fs,
    fun root fs ch rest => rfl, ?_, rfl, rfl⟩
  intro safeRoot fs op ps c h
  unfold applyOne
  simp only [h]
  rfl

/-- Witness for C2: the escaping `Delete("/etc/hosts")` fails with a
path escape and performs no filesystem change. -/
theorem apply_changes_per_op_isolation_witness :
    clamp_to_root (some ["proj"]) (parsePath "/etc/hosts") = .error .pathEscape
    ∧ applyOne (some ["proj"]) fs0
        { op := some "delete", path := some "/etc/hosts", content := none } =
      (fs0, .failed .pathEscape) := by
  refine ⟨by rfl, ?_⟩
  exact apply_changes_per_op_isolation.2.2.1 (some ["proj"]) fs0 (some "delete")
    "/etc/hosts" none (by rfl)

/-- Counterexample to C5: create/update does not succeed on every
in-sandbox path with present content.  In the plan
`[Create("a","x"), Create("a/b.txt","y")]` the second operation's path
is in-sandbox and its content present, yet
`mkdir(parents=True, exist_ok=True)` on `proj/a` — a regular file after
the first operation — raises, the loop records the failure, and nothing
is written or created for it. -/
theorem create_update_counterexample :
    clamp_to_root (some ["proj"]) (parsePath "a/b.txt") = .ok ["proj", "a", "b.txt"]
    ∧ (PlanView.apply_changes (some planFileParent) (some ["proj"]) fs0).2 =
      .report [.applied, .failed .notADirectory]
    ∧ (PlanView.apply_changes (some planFileParent) (some ["proj"]) fs0).1.files
        ["proj", "a", "b.txt"] = none
    ∧ (PlanView.apply_changes (some planFileParent) (some ["proj"]) fs0).1.dirs
        ["proj", "a"] = false :=
  ⟨rfl, rfl, rfl, rfl⟩

/-- C5 amended: for a create/update whose path resolves inside the
sandbox and whose content is present, when the parent-directory
creation and the write succeed — that is, no prefix of the target's
parent chain is an existing regular file and the target itself is not
an existing directory — apply creates every missing parent directory
and writes the content as the whole file body, overwriting whatever
file was there and touching no other file; when mkdir or the write
raises, that operation alone is recorded as failed, with the
directories mkdir already made kept.  `create` and `update` have
identical filesystem effects on every input. -/
theorem create_update_write_semantics :
    (∀ safeRoot fs p c,
        applyOne safeRoot fs { op := some "create", path := p, content := c } =
          applyOne safeRoot fs { op := some "update", path := p, content := c })
    ∧ (∀ root fs ps c target fs2 fs3,
        clamp_to_root (some root) (parsePath ps) = .ok target →
        mkdirParents fs target.dropLast = .ok fs2 →
        writeFile fs2 target c = .ok fs3 →
          applyOne (some root) fs
              { op := some "create", path := some ps, content := some c } =
            (fs3, .applied))
    ∧ (∀ fs d fs2, mkdirParents fs d = .ok fs2 →
        (∀ q, q <+: d → fs2.dirs q = true) ∧ fs2.files = fs.files)
    ∧ (∀ fs p c fs3, writeFile fs p c = .ok fs3 →
        fs3.files p = some c
        ∧ (∀ q, q ≠ p → fs3.files q = fs.files q)
        ∧ fs3.dirs = fs.dirs)
    ∧ (∀ root fs ps c target,
        clamp_to_root (some root) (parsePath ps) = .ok target →
        mkdirParents fs target.dropLast = .error () →
          applyOne (some root) fs
              { op := some "create", path := some ps, content := some c } =
            (fs, .failed .notADirectory))
    ∧ (∀ root fs ps c target fs2,
        clamp_to_root (some root) (parsePath ps) = .ok target →
        mkdirParents fs target.dropLast = .ok fs2 →
        writeFile fs2 target c = .error () →
          applyOne (some root) fs
              { op := some "create", path := some ps, content := some c } =
            (fs2, .failed .isADirectory)) := by
  refine ⟨?_, ?_, ?_, ?_, ?_, ?_⟩
  · intro safeRoot fs p c
    cases p with
    | none => rfl
    | some ps =>
      unfold applyOne
      cases hc : clamp_to_root safeRoot (parsePath ps) with
      | error e => simp [hc]
      | ok target => simp [hc]
  · intro root fs ps c target fs2 fs3 h hm hw
    unfold applyOne
    simp only [h]
    simp only [hm]
    simp [hw]
  · intro fs d fs2 hm
    unfold mkdirParents at hm
    by_cases hcond : ((pathPrefixes d).any (fun q => (fs.files q).isSome)) = true
    · rw [if_pos hcond] at hm
      exact absurd hm (by simp)
    · rw [if_neg hcond] at hm
      have h2 : ({ fs with dirs := fun q => fs.dirs q || q.isPrefixOf d } : FS) = fs2 := by
        injection hm
      constructor
      · intro q hq
        have hb : q.isPrefixOf d = true := List.isPrefixOf_iff_prefix.mpr hq
        rw [← h2]
        simp [hb]
      · rw [← h2]
  · intro fs p c fs3 hw
    unfold writeFile at hw
    by_cases hcond : fs.dirs p = true
    · rw [if_pos hcond] at hw
      exact absurd hw (by simp)
    · rw [if_neg hcond] at hw
      have h2 : ({ fs with files := fun q => if q = p then some c else fs.files q } : FS)
          = fs3 := by
        injection hw
      refine ⟨by rw [← h2]; simp, ?_, by rw [← h2]⟩
      intro q hq
      rw [← h2]
      simp [hq]
  · intro root fs ps c target h hm
    unfold applyOne
    simp only [h]
    simp [hm]
  · intro root fs ps c target fs2 h hm hw
    unfold applyOne
    simp only [h]
    simp only [hm]
    simp [hw]

/-- Witness for C5: `Create("a/b/c.txt","hi")` under root `proj` on the
empty project creates directories `proj/a` and `proj/a/b` and writes
`proj/a/b/c.txt` containing exactly `"hi"`. -/
theorem create_update_write_semantics_witness :
    clamp_to_root (some ["proj"]) (parsePath "a/b/c.txt") =
      .ok ["proj", "a", "b", "c.txt"]
    ∧ (applyOne (some ["proj"]) fs0
        { op := some "create", path := some "a/b/c.txt", content := some "hi" }).2 =
      .applied
    ∧ (applyOne (some ["proj"]) fs0
        { op := some "create", path := some "a/b/c.txt", content := some "hi" }).1.files
        ["proj", "a", "b", "c.txt"] = some "hi"
    ∧ (applyOne (some ["proj"]) fs0
        { op := some "create", path := some "a/b/c.txt", content := some "hi" }).1.dirs
        ["proj", "a"] = true
    ∧ (applyOne (some ["proj"]) fs0
        { op := some "create", path := some "a/b/c.txt", content := some "hi" }).1.dirs
        ["proj", "a", "b"] = true := by
  have h := create_update_write_semantics.2.1 ["proj"] fs0 "a/b/c.txt" "hi"
    ["proj", "a", "b", "c.txt"] _ _ (by rfl) (by rfl) (by rfl)
  refine ⟨by rfl, ?_, ?_, ?_, ?_⟩ <;> rw [h] <;> rfl

/-- Counterexample to C6: an existing delete target is not always
removed.  In the plan `[Create("d/f.txt","x"), Delete("d")]` the delete
target `proj/d` is in-sandbox and exists — as a directory — so
`target.unlink()` raises `IsADirectoryError`: the loop records the
failure and the directory and its file remain. -/
theorem delete_dir_counterexample :
    clamp_to_root (some ["proj"]) (parsePath "d") = .ok ["proj", "d"]
    ∧ (PlanView.apply_changes (some planDeleteDir) (some ["proj"]) fs0).2 =
      .report [.applied, .failed .isADirectory]
    ∧ (PlanView.apply_changes (some planDeleteDir) (some ["proj"]) fs0).1.dirs
        ["proj", "d"] = true
    ∧ (PlanView.apply_changes (some planDeleteDir) (some ["proj"]) fs0).1.files
        ["proj", "d", "f.txt"] = some "x" :=
  ⟨rfl, rfl, rfl, rfl⟩

/-- C6 amended: for a delete whose path resolves inside the sandbox —
if the target does not exist, the operation is an applied no-op; if it
exists as a regular file (not a directory), it is removed and the
operation applied; if it exists as a directory, `unlink` raises
`IsADirectoryError`, the operation alone is recorded as failed and
nothing is removed. -/
theorem delete_noop_or_remove (root : List String) (fs : FS) (ps : String)
    (target : List String)
    (h : clamp_to_root (some root) (parsePath ps) = .ok target) :
    (fsExists fs target = false →
      applyOne (some root) fs
          { op := some "delete", path := some ps, content := none } =
        (fs, .applied))
    ∧ (fs.dirs target = false → fsExists fs target = true →
      applyOne (some root) fs
          { op := some "delete", path := some ps, content := none } =
        ({ fs with files := fun q => if q = target then none else fs.files q },
          .applied))
    ∧ (fs.dirs target = true →
      applyOne (some root) fs
          { op := some "delete", path := some ps, content := none } =
        (fs, .failed .isADirectory)) := by
  refine ⟨?_, ?_, ?_⟩
  · intro he
    unfold applyOne
    simp only [h]
    simp [he]
  · intro hd he
    unfold applyOne
    simp only [h]
    simp [he, unlinkEntry, hd]
  · intro hd
    have he : fsExists fs target = true := by simp [fsExists, hd]
    unfold applyOne
    simp only [h]
    simp [he, unlinkEntry, hd]

/-- Witness for C6: `Delete("missing.txt")` against the empty project is
an applied no-op. -/
theorem delete_noop_or_remove_witness :
    fsExists fs0 ["proj", "missing.txt"] = false
    ∧ applyOne (some ["proj"]) fs0
        { op := some "delete", path := some "missing.txt", content := none } =
      (fs0, .applied) := by
  refine ⟨rfl, ?_⟩
  exact (delete_noop_or_remove ["proj"] fs0 "missing.txt" ["proj", "missing.txt"]
    (by rfl)).1 rfl


/-- Counterexample to C4: `load_plan` is permissive, not validating.  A
top-level object with no `changes` key decodes to the empty plan, an
operation whose `op` is `rename` decodes verbatim, and a `create` with
no `content` decodes with an absent content — none of the three fails at
decode time. -/
theorem load_plan_not_strict_counterexample :
    PlanView.load_plan (.jobj []) = .ok { changes := [], notes := "" }
    ∧ PlanView.load_plan (.jobj [("changes", .jarr
        [.jobj [("op", .jstr "rename"), ("path", .jstr "a")]])]) =
      .ok { changes := [{ op := some "rename", path := some "a", content := none }],
            notes := "" }
    ∧ PlanView.load_plan (.jobj [("changes", .jarr
        [.jobj [("op", .jstr "create"), ("path", .jstr "b.txt")]])]) =
      .ok { changes := [{ op := some "create", path := some "b.txt", content := none }],
            notes := "" } :=
  ⟨rfl, rfl, rfl⟩

/-- C4 amended: decoding is permissive — a plan object without `changes`
decodes to the empty plan, and operations with an unknown `op` or a
`create` missing `content` are accepted at decode time; those malformed
operations fail later, at apply time, as per-operation failures (unknown
operation / missing content).  Decode itself fails only when the input
is not traversable: a non-object top level, or a `changes` value that is
not a sequence of objects. -/
theorem load_plan_permissive_apply_time_failures :
    PlanView.load_plan (.jobj []) = .ok { changes := [], notes := "" }
    ∧ PlanView.load_plan (.jobj [("changes", .jarr
        [.jobj [("op", .jstr "rename"), ("path", .jstr "a")]])]) =
      .ok { changes := [{ op := some "rename", path := some "a", content := none }],
            notes := "" }
    ∧ (applyOne (some ["proj"]) fs0
        { op := some "rename", path := some "a", content := none }).2 =
      .failed (.unknownOp (some "rename"))
    ∧ PlanView.load_plan (.jobj [("changes", .jarr
        [.jobj [("op", .jstr "create"), ("path", .jstr "b.txt")]])]) =
      .ok { changes := [{ op := some "create", path := some "b.txt", content := none }],
            notes := "" }
    ∧ (applyOne (some ["proj"]) fs0
        { op := some "create", path := some "b.txt", content := none }).2 =
      .failed .missingContent
    ∧ PlanView.load_plan (.jstr "not an object") = .error ()
    ∧ PlanView.load_plan (.jobj [("changes", .jstr "xs")]) = .error ()
    ∧ PlanView.load_plan (.jobj [("changes", .jarr [.jstr "not a dict"])]) = .error () :=
  ⟨rfl, rfl, rfl, rfl, rfl, rfl, rfl, rfl⟩

/-- C7: every invocation of the worker delivers exactly one terminal
notification — the plan text on success or the error on failure, never
zero and never both. -/
theorem aiworker_run_exactly_one_notification
    (apiKey : Option String) (service : String → Except String String)
    (msg : String) :
    (AIWorker.run apiKey service msg).length = 1
    ∧ ((∃ t, AIWorker.run apiKey service msg = [.planReady t])
      ∨ (∃ e, AIWorker.run apiKey service msg = [.fetchFailed e])) := by
  cases apiKey with
  | none => exact ⟨rfl, Or.inr ⟨_, rfl⟩⟩
  | some k =>
    cases hs : service msg with
    | ok t =>
      unfold AIWorker.run
      rw [hs]
      exact ⟨rfl, Or.inl ⟨t, rfl⟩⟩
    | error e =>
      unfold AIWorker.run
      rw [hs]
      exact ⟨rfl, Or.inr ⟨e, rfl⟩⟩

/-- C8: the offline generator is a fixed deterministic function of the
instruction: exactly one `create` of the documentation file `README.md`,
whose content embeds the instruction verbatim, with the fixed stub
notes. -/
theorem offline_plan_shape (m : String) :
    offline_plan m =
      { changes := [{ op := some "create", path := some "README.md",
                      content := some ("# Projekt\n\nInstrukcja: " ++ m ++ "\n") }],
        notes := "Tryb offline: tylko przykład tworzenia README.md" }
    ∧ (offline_plan m).changes.length = 1
    ∧ (∃ pre post, (offline_plan m).changes =
        [{ op := some "create", path := some "README.md",
           content := some (pre ++ m ++ post) }]) :=
  ⟨rfl, rfl, "# Projekt\n\nInstrukcja: ", "\n", rfl⟩
